import Mathlib

/-!
Verification of the session-scoped concurrency core of the dust-mcp-server
repository: the Message Router (`src/lib/message/MessageRouter.js`), the
Conversation History (`src/unnamed/part_003`), the Conversation Manager
(`src/lib/validation/workspaceValidator.js`, second module), and the
Streaming Handler (`src/unnamed/part_000`).

The JavaScript classes are shallowly embedded: each `Map` becomes an
association list over `String` keys, `Date.now()` values become explicit
`Nat` parameters, JavaScript numbers that only ever hold integers become
`Nat`/`Int`, and the jittered retry delay (a JS float computation that is
exact on the inputs at stake) is modelled over `ℚ` with `Math.random()`
passed explicitly as a rational in `[0, 1)`.  Asynchronous methods are cut
at their `await` points into atomic steps of an explicit transition system;
ghost fields (`nextTag`, `enqLog`, `dispatchLog`) record enqueue/dispatch
order, which the JavaScript expresses only through promise identity.
-/

namespace DustMcp

/-! ## JavaScript `Map` on association lists

`jget`/`jset`/`jhas` mirror `Map.prototype.get` / `set` / `has`: `set` on an
existing key updates it in place (keeping its position), otherwise appends. -/

def jget {α : Type} (m : List (String × α)) (k : String) : Option α :=
  match m with
  | [] => none
  | (k', v) :: rest => if k' = k then some v else jget rest k

def jset {α : Type} (m : List (String × α)) (k : String) (v : α) : List (String × α) :=
  match m with
  | [] => [(k, v)]
  | (k', v') :: rest => if k' = k then (k, v) :: rest else (k', v') :: jset rest k v

def jhas {α : Type} (m : List (String × α)) (k : String) : Bool :=
  (jget m k).isSome

/-! ## Message Router: rate limiter

Embeds `MessageRouter._checkRateLimit` (src/lib/message/MessageRouter.js,
lines 52-71).  The JS mutates the `sessionLimit` object in place, so the
window reset is persisted even on the rate-limited path whenever the object
came out of the map; only the admitting path calls `Map.set`.  Times are
`Date.now()` milliseconds as `Nat`. -/

structure RouterConfig where
  maxConcurrent : Nat
  rateLimitWindow : Nat
  rateLimitMax : Nat
deriving DecidableEq

def defaultRouterConfig : RouterConfig :=
  { maxConcurrent := 5, rateLimitWindow := 1000, rateLimitMax := 10 }

structure RateLimitEntry where
  count : Nat
  resetTime : Nat
deriving DecidableEq

def checkRateLimit (cfg : RouterConfig) (rl : List (String × RateLimitEntry))
    (sessionId : String) (now : Nat) : Bool × List (String × RateLimitEntry) :=
  let sl0 := (jget rl sessionId).getD { count := 0, resetTime := 0 }
  -- `if (now >= sessionLimit.resetTime) { count = 0; resetTime = now + window }`
  let sl := if sl0.resetTime ≤ now then
              { count := 0, resetTime := now + cfg.rateLimitWindow }
            else sl0
  if cfg.rateLimitMax ≤ sl.count then
    -- rate limited: no `set` call, but an object already in the map was
    -- mutated in place, so the reset (if any) sticks for existing entries
    (false, if (jget rl sessionId).isSome then jset rl sessionId sl else rl)
  else
    (true, jset rl sessionId { sl with count := sl.count + 1 })

/-- Iterated admission attempts at the given times, threading the map. -/
def admitTimes (cfg : RouterConfig) (rl : List (String × RateLimitEntry))
    (sessionId : String) : List Nat → List Bool × List (String × RateLimitEntry)
  | [] => ([], rl)
  | t :: ts =>
    let r := checkRateLimit cfg rl sessionId t
    let rec' := admitTimes cfg r.2 sessionId ts
    (r.1 :: rec'.1, rec'.2)

/-! ## Message Router: queueing transition system

`MessageRouter` (src/lib/message/MessageRouter.js) keeps `queues`,
`activeCounts` and `rateLimits` maps keyed by session id.  `queueMessage`
pushes an entry and schedules `processQueue`; `processQueue` runs
synchronously from the pop up to `await this._processMessage(...)`, so that
stretch (shift, active-count increment, rate-limit check, session lookup,
and on a throw the catch/finally with its decrement) is one atomic step;
the resumption after the await (the `finally` decrement) is a separate
`completeMessage` step.

Queue entries are promise closures in the JS; the embedding identifies them
by ghost `Nat` tags drawn from a ghost counter `nextTag`.  `enqLog` and
`dispatchLog` are ghost histories recording `(sessionId, tag)` in enqueue
and in pop order; `inflight` records dispatches whose `_processMessage` has
not yet settled. -/

structure RouterState where
  queues : List (String × List Nat)
  activeCounts : List (String × Nat)
  rateLimits : List (String × RateLimitEntry)
  inflight : List (String × Nat)
  nextTag : Nat
  enqLog : List (String × Nat)
  dispatchLog : List (String × Nat)
deriving DecidableEq

def initRouter : RouterState :=
  { queues := [], activeCounts := [], rateLimits := [], inflight := [],
    nextTag := 0, enqLog := [], dispatchLog := [] }

/-- `queueMessage` (lines 151-178): create the queue (and a zero active
count) if absent, then push the entry. -/
def queueMessage (s : RouterState) (sessionId : String) : RouterState :=
  let s1 := if jhas s.queues sessionId then s
            else { s with queues := jset s.queues sessionId [],
                          activeCounts := jset s.activeCounts sessionId 0 }
  let q := (jget s1.queues sessionId).getD []
  { s1 with queues := jset s1.queues sessionId (q ++ [s1.nextTag]),
            enqLog := s1.enqLog ++ [(sessionId, s1.nextTag)],
            nextTag := s1.nextTag + 1 }

/-- The `finally` block of `processQueue` (lines 122-126):
`(this.activeCounts.get(sessionId) || 1) - 1` — note that a stored `0` is
falsy in JS, so both a missing entry and a stored `0` read as `1`. -/
def finallyDecrement (s : RouterState) (sessionId : String) : RouterState :=
  let cur := match jget s.activeCounts sessionId with
             | none => 1
             | some n => if n = 0 then 1 else n
  { s with activeCounts := jset s.activeCounts sessionId (cur - 1) }

inductive DispatchOutcome where
  | idle
  | rejectedRateLimit (tag : Nat)
  | rejectedNoSession (tag : Nat)
  | started (tag : Nat)
deriving DecidableEq

/-- `processQueue` (lines 78-130) up to its `await`: no-op when the queue is
empty or the concurrency cap is hit; otherwise shift the head, bump the
active count, and run the rate-limit and session checks.  A synchronous
throw rejects the entry's promise and runs the `finally` decrement inside
the same atomic step; otherwise the entry goes in flight.  `sessionExists`
stands for `this.sessionManager.getSession(sessionId)` being non-null. -/
def processQueue (cfg : RouterConfig) (s : RouterState) (sessionId : String)
    (now : Nat) (sessionExists : Bool) : RouterState × DispatchOutcome :=
  -- `if (queue.length === 0 || activeCount >= this.maxConcurrent) return;`
  match (jget s.queues sessionId).getD [] with
  | [] => (s, .idle)
  | tag :: rest =>
    let active := (jget s.activeCounts sessionId).getD 0
    if cfg.maxConcurrent ≤ active then (s, .idle)
    else
      let s1 := { s with queues := jset s.queues sessionId rest,
                         activeCounts := jset s.activeCounts sessionId (active + 1),
                         dispatchLog := s.dispatchLog ++ [(sessionId, tag)] }
      let rc := checkRateLimit cfg s1.rateLimits sessionId now
      let s2 := { s1 with rateLimits := rc.2 }
      if rc.1 = false then
        (finallyDecrement s2 sessionId, .rejectedRateLimit tag)
      else if sessionExists = false then
        (finallyDecrement s2 sessionId, .rejectedNoSession tag)
      else
        ({ s2 with inflight := s2.inflight ++ [(sessionId, tag)] }, .started tag)

/-- Resumption of `processQueue` after `await this._processMessage(...)`
settles (success or failure): the `finally` decrement.  Guarded on the
dispatch actually being in flight, since the JS `finally` runs exactly once
per dispatched entry. -/
def completeMessage (s : RouterState) (sessionId : String) (tag : Nat) : RouterState :=
  if (sessionId, tag) ∈ s.inflight then
    finallyDecrement { s with inflight := s.inflight.erase (sessionId, tag) } sessionId
  else s

inductive RouterEv where
  | enq (sessionId : String)
  | deq (sessionId : String) (now : Nat) (sessionExists : Bool)
  | fin (sessionId : String) (tag : Nat)
deriving DecidableEq

def evSession : RouterEv → String
  | .enq sessionId => sessionId
  | .deq sessionId _ _ => sessionId
  | .fin sessionId _ => sessionId

def routerStep (cfg : RouterConfig) (s : RouterState) : RouterEv → RouterState
  | .enq sessionId => queueMessage s sessionId
  | .deq sessionId now sessionExists => (processQueue cfg s sessionId now sessionExists).1
  | .fin sessionId tag => completeMessage s sessionId tag

def routerExec (cfg : RouterConfig) (s : RouterState) : List RouterEv → RouterState
  | [] => s
  | e :: es => routerExec cfg (routerStep cfg s e) es

/-- Projection of a ghost `(sessionId, tag)` history onto one session. -/
def perSession (sessionId : String) (l : List (String × Nat)) : List Nat :=
  (l.filter (fun p => p.1 == sessionId)).map Prod.snd

/-- The per-session FIFO invariant: what has been popped so far, followed by
what is still queued, is exactly the enqueue history of that session. -/
def FifoInv (s : RouterState) : Prop :=
  ∀ sid, perSession sid s.dispatchLog ++ (jget s.queues sid).getD [] =
    perSession sid s.enqLog

def c3State : RouterState :=
  { queues := [("s1", [7])], activeCounts := [("s1", 0)],
    rateLimits := [("s1", { count := 10, resetTime := 100 })],
    inflight := [], nextTag := 8, enqLog := [("s1", 7)], dispatchLog := [] }

/-! ## Message Router: `getQueueStatus` -/

structure QueueStatus where
  queued : Nat
  active : Nat
  rateLimited : Bool
  rlCurrent : Nat
  rlMax : Nat
  resetIn : Int
  maxConcurrent : Nat
deriving DecidableEq

/-- `getQueueStatus` (lines 185-201).  The method body performs reads only,
so the embedding returns the router state it was given. -/
def getQueueStatus (cfg : RouterConfig) (s : RouterState) (sessionId : String)
    (now : Nat) : QueueStatus × RouterState :=
  let queue := (jget s.queues sessionId).getD []
  let active := (jget s.activeCounts sessionId).getD 0
  let rl := (jget s.rateLimits sessionId).getD { count := 0, resetTime := 0 }
  ({ queued := queue.length,
     active := active,
     rateLimited := decide (cfg.rateLimitMax ≤ rl.count),
     rlCurrent := rl.count,
     rlMax := cfg.rateLimitMax,
     resetIn := max 0 ((rl.resetTime : Int) - (now : Int)),
     maxConcurrent := cfg.maxConcurrent }, s)

/-! ## Conversation History

Embeds the `ConversationHistory` class of `src/unnamed/part_003`: a map from
session id to `{messages, tokenCount}`, with `addMessage` validating the
session id and the role, appending, bumping the approximate token count, and
trimming (`_trimHistory`): first by message count against `maxHistory`, then
by token count against `maxTokens` but never below one message, finally
clamping the token count at zero.  Message ids (`uuidv4()`) and the
free-form `metadata` object are not modelled; the token count is `Int`
because the JS running value can go negative transiently inside the trim
loops before the final clamp. -/

structure HMessage where
  role : String
  content : String
  timestamp : Nat
deriving DecidableEq

structure HistoryConfig where
  maxHistory : Nat
  maxTokens : Nat
deriving DecidableEq

def defaultHistoryConfig : HistoryConfig := { maxHistory := 50, maxTokens := 4000 }

structure SessionHistory where
  messages : List HMessage
  tokenCount : Int
deriving DecidableEq

/-- `_estimateTokens`: `Math.ceil(text.length / 4)`. -/
def estimateTokens (text : String) : Nat :=
  (text.length + 3) / 4

/-- First loop of `_trimHistory`:
`while (messages.length > maxHistory) { shift; tokenCount -= estimate }`. -/
def trimByCount (maxHistory : Nat) (ms : List HMessage) (tc : Int) :
    List HMessage × Int :=
  match ms with
  | [] => ([], tc)
  | m :: rest =>
    if maxHistory < (m :: rest).length then
      trimByCount maxHistory rest (tc - estimateTokens m.content)
    else (m :: rest, tc)

/-- Second loop of `_trimHistory`:
`while (tokenCount > maxTokens && messages.length > 1) { shift; ... }`. -/
def trimByTokens (maxTokens : Nat) (ms : List HMessage) (tc : Int) :
    List HMessage × Int :=
  match ms with
  | [] => ([], tc)
  | [m] => ([m], tc)
  | m :: m' :: rest =>
    if (maxTokens : Int) < tc then
      trimByTokens maxTokens (m' :: rest) (tc - estimateTokens m.content)
    else (m :: m' :: rest, tc)

/-- `_trimHistory`, including the final `tokenCount = Math.max(0, tokenCount)`. -/
def trimHistory (cfg : HistoryConfig) (h : SessionHistory) : SessionHistory :=
  let p1 := trimByCount cfg.maxHistory h.messages h.tokenCount
  let p2 := trimByTokens cfg.maxTokens p1.1 p1.2
  { messages := p2.1, tokenCount := max 0 p2.2 }

inductive HistError where
  | sessionIdRequired
  | invalidRole
deriving DecidableEq

/-- The roles accepted by `addMessage`:
`['user', 'agent', 'system'].includes(role)`. -/
def validRoles : List String := ["user", "agent", "system"]

/-- `ConversationHistory.addMessage` (part_003, lines 38-75).  An empty
session id is the falsy case of `if (!sessionId)`. -/
def historyAddMessage (cfg : HistoryConfig) (hs : List (String × SessionHistory))
    (sessionId : String) (msg : HMessage) :
    Except HistError (List (String × SessionHistory)) :=
  if sessionId = "" then .error .sessionIdRequired
  else if msg.role ∉ validRoles then .error .invalidRole
  else
    let hs1 := if jhas hs sessionId then hs
               else jset hs sessionId { messages := [], tokenCount := 0 }
    let h := (jget hs1 sessionId).getD { messages := [], tokenCount := 0 }
    let h1 : SessionHistory :=
      { messages := h.messages ++ [msg],
        tokenCount := h.tokenCount + estimateTokens msg.content }
    .ok (jset hs1 sessionId (trimHistory cfg h1))

/-- A finite sequence of `addMessage` calls; a call that throws leaves the
store unchanged (the JS mutations all happen after both validations). -/
def historyExec (cfg : HistoryConfig) (hs : List (String × SessionHistory)) :
    List (String × HMessage) → List (String × SessionHistory)
  | [] => hs
  | (sessionId, m) :: rest =>
    match historyAddMessage cfg hs sessionId m with
    | .ok hs' => historyExec cfg hs' rest
    | .error _ => historyExec cfg hs rest

/-- The per-store invariant: every session's stored history respects the
message-count bound and has a non-negative token count. -/
def HistInv (cfg : HistoryConfig) (hs : List (String × SessionHistory)) : Prop :=
  ∀ sid, ((jget hs sid).getD { messages := [], tokenCount := 0 }).messages.length ≤
      cfg.maxHistory ∧
    0 ≤ ((jget hs sid).getD { messages := [], tokenCount := 0 }).tokenCount

/-! ## Conversation Manager

Embeds the `ConversationManager` class (second module of
`src/lib/validation/workspaceValidator.js`): lifecycle states, `addMessage`
with its terminal-state guards and its try/catch, `checkAndSummarize`
(token ratio against `summarizeThreshold`) and `summarize` (keep the most
recent half of the messages behind one synthetic system marker).  Wall-clock
fields (`createdAt`, `updatedAt`, timers) and event emission are not
modelled; the summarization step's success or failure is an explicit
parameter, standing for the placeholder summarizer either returning or
throwing.  The token ratio is computed over `ℚ` with `maxTokens` assumed
positive (the default is 4000). -/

inductive ConvLifecycle where
  | initializingState
  | active
  | waitingForResponse
  | idle
  | completed
  | error
deriving DecidableEq

structure ConvMOptions where
  maxHistory : Nat
  maxTokens : Nat
  summarizeThreshold : ℚ
deriving DecidableEq

def cmDefaultOptions : ConvMOptions :=
  { maxHistory := 50, maxTokens := 4000, summarizeThreshold := 3 / 4 }

structure ConvMState where
  state : ConvLifecycle
  history : SessionHistory
deriving DecidableEq

inductive ConvError where
  | cannotAddToCompleted
  | cannotAddToErrorState
  | summarizationFailed
deriving DecidableEq

/-- Modelled from the spec: the `ConversationHistory` module required from
`../history/ConversationHistory.js` (per-conversation `addMessage`,
`tokenCount`) is not among the sources.  Per spec section 4.4 its
`addMessage` appends, adds the `length / 4` rounded-up token estimate, and
trims by `maxHistory` and `maxTokens` with the same loops as the
session-keyed history, clamping the count at zero. -/
def cmHistoryAdd (opts : ConvMOptions) (h : SessionHistory) (msg : HMessage) :
    SessionHistory :=
  trimHistory { maxHistory := opts.maxHistory, maxTokens := opts.maxTokens }
    { messages := h.messages ++ [msg],
      tokenCount := h.tokenCount + estimateTokens msg.content }

/-- Modelled from the spec: `replaceHistory` of the same missing
`ConversationHistory` module replaces the stored message list; the running
token estimate is kept consistent with the retained messages. -/
def cmReplaceHistory (ms : List HMessage) : SessionHistory :=
  { messages := ms,
    tokenCount := (ms.map (fun m => (estimateTokens m.content : Int))).sum }

/-- The synthetic marker message `summarize` prepends. -/
def summaryMessage : HMessage :=
  { role := "system", content := "[Previous conversation summarized]", timestamp := 0 }

/-- `ConversationManager.summarize`, success path (lines 398-447): keep the
most recent `Math.max(1, Math.floor(length * 0.5))` messages behind the
marker.  `slice(-k)` is `drop (length - k)`. -/
def cmSummarize (c : ConvMState) : ConvMState :=
  let history := c.history.messages
  let messagesToKeep := max 1 (history.length / 2)
  let newHistory := summaryMessage :: history.drop (history.length - messagesToKeep)
  { c with history := cmReplaceHistory newHistory }

/-- `ConversationManager.addMessage` (lines 332-376) with
`checkAndSummarize` (lines 383-392) inlined.  The entire history append,
state bookkeeping and summarization check sit inside one `try`; the `catch`
sets the conversation state to `error` and rethrows.  `summarizeFails` says
whether the summarization step throws when triggered. -/
def cmAddMessage (opts : ConvMOptions) (c : ConvMState) (msg : HMessage)
    (summarizeFails : Bool) : ConvMState × Except ConvError HMessage :=
  if c.state = .completed then (c, .error .cannotAddToCompleted)
  else if c.state = .error then (c, .error .cannotAddToErrorState)
  else
    let c1 : ConvMState := { c with history := cmHistoryAdd opts c.history msg }
    let c2 := if c1.state = .idle then { c1 with state := .active } else c1
    -- `checkAndSummarize`: `tokenCount / maxTokens >= summarizeThreshold`
    if opts.summarizeThreshold ≤
        (c2.history.tokenCount : ℚ) / (opts.maxTokens : ℚ) then
      if summarizeFails then
        -- the exception from `summarize` reaches `addMessage`'s catch:
        -- `this.setState(CONVERSATION_STATES.ERROR, { error }); throw error;`
        ({ c2 with state := .error }, .error .summarizationFailed)
      else (cmSummarize c2, .ok msg)
    else (c2, .ok msg)

def c1Msg0 : HMessage :=
  { role := "user", content := "earlier conversation", timestamp := 0 }

def c1Msg : HMessage :=
  { role := "user", content := "0123456789012345678901234567890123456789",
    timestamp := 1 }

def c1Conv : ConvMState :=
  { state := .active,
    history := { messages := [c1Msg0], tokenCount := 3000 } }

/-! ## Streaming Handler

Embeds `StreamingHandler` (src/unnamed/part_000): the retry configuration,
`_isRetryableError`, `_calculateDelay` (with `Math.random()` passed as an
explicit rational `u ∈ [0, 1)`), the option plumbing from `streamResponse`
into `_fetchWithRetry` (`{...options, signal: controller.signal}`), and the
retry recursion itself, driven by an explicit map from attempt index to that
attempt's result.  Abort signals are identified by `Nat` tokens; a request
is aborted by a set of fired signals exactly when the signal attached to it
has fired. -/

structure RetryConfig where
  maxRetries : Nat
  initialDelay : Nat
  maxDelay : Nat
  factor : Nat
  timeout : Nat
  retryableStatuses : List Nat
  retryableErrors : List String
deriving DecidableEq

def defaultRetryConfig : RetryConfig :=
  { maxRetries := 3, initialDelay := 1000, maxDelay := 10000, factor := 2,
    timeout := 30000,
    retryableStatuses := [408, 429, 500, 502, 503, 504],
    retryableErrors := ["ECONNRESET", "ETIMEDOUT", "ECONNREFUSED"] }

structure FetchError where
  code : Option String
  status : Option Nat
deriving DecidableEq

/-- `_isRetryableError` (lines 53-57).  `error.status && ...`: a status of
`0` is falsy in JS, so the status clause requires a present, non-zero
status. -/
def isRetryableError (cfg : RetryConfig) (e : FetchError) : Bool :=
  if (match e.code with
      | some c => cfg.retryableErrors.contains c
      | none => false) then true
  else
    match e.status with
    | some s => s != 0 && cfg.retryableStatuses.contains s
    | none => false

/-- The exponential-backoff base of `_calculateDelay`:
`Math.min(initialDelay * Math.pow(factor, attempt), maxDelay)`. -/
def baseDelay (cfg : RetryConfig) (attempt : Nat) : Nat :=
  min (cfg.initialDelay * cfg.factor ^ attempt) cfg.maxDelay

/-- `_calculateDelay` (lines 43-47): `delay * (0.5 + Math.random() * 0.5)`,
with `Math.random()` passed explicitly as `u`. -/
def calculateDelay (cfg : RetryConfig) (attempt : Nat) (u : ℚ) : ℚ :=
  (baseDelay cfg attempt : ℚ) * (1 / 2 + u * (1 / 2))

/-- The delay law the specification asserts: a ±50% jitter around the base,
so that over `u ∈ [0, 1)` the delay spans 50% to 150% of the base.  Stated
from the spec's words, for comparison against `calculateDelay`. -/
def specClaimedJitterDelay (cfg : RetryConfig) (attempt : Nat) (u : ℚ) : ℚ :=
  (baseDelay cfg attempt : ℚ) * (1 / 2 + u)

/-- Fetch options as assembled by `streamResponse` (lines 144-161): the
request method and body, and the optional caller `AbortSignal`.  Headers
carry no behaviour relevant here and are omitted. -/
structure FetchOptions where
  method : String
  body : String
  signal : Option Nat
deriving DecidableEq

/-- `streamResponse`'s option assembly: `signal` is set only when the caller
provided one (`if (options.signal) fetchOptions.signal = options.signal`). -/
def buildStreamFetchOptions (message : String) (callerSignal : Option Nat) :
    FetchOptions :=
  let base : FetchOptions := { method := "POST", body := message, signal := none }
  match callerSignal with
  | some s => { base with signal := some s }
  | none => base

/-- The options `_fetchWithRetry` actually passes to `fetch` (lines 72-75):
`{ ...options, signal: controller.signal }` — the spread is overridden by
the per-attempt controller's signal. -/
def fetchRequestOptions (options : FetchOptions) (controllerSignal : Nat) :
    FetchOptions :=
  { options with signal := some controllerSignal }

/-- A request is aborted by a set of fired signals exactly when the signal
attached to it has fired. -/
def attemptAborted (req : FetchOptions) (fired : List Nat) : Bool :=
  match req.signal with
  | some s => fired.contains s
  | none => false

inductive AttemptResult where
  | success
  | failure (e : FetchError)
deriving DecidableEq

/-- Outcome of `_fetchWithRetry`: how many attempts ran in total, and the
attempt indices at which a `retry` notification fired. -/
inductive FetchOutcome where
  | ok (attempts : Nat) (retries : List Nat)
  | failed (e : FetchError) (attempts : Nat) (retries : List Nat)
deriving DecidableEq

def attemptsOf : FetchOutcome → Nat
  | .ok a _ => a
  | .failed _ a _ => a

def retriesOf : FetchOutcome → List Nat
  | .ok _ rs => rs
  | .failed _ _ rs => rs

/-- `_fetchWithRetry` (lines 63-105), with each attempt's result supplied by
`result`: on a failure it retries exactly when
`attempt < maxRetries && this._isRetryableError(error)`, emitting a `retry`
notification, and otherwise rethrows. -/
def fetchWithRetry (cfg : RetryConfig) (result : Nat → AttemptResult)
    (attempt : Nat) : FetchOutcome :=
  match result attempt with
  | .success => .ok (attempt + 1) []
  | .failure e =>
    if h : attempt < cfg.maxRetries ∧ isRetryableError cfg e then
      match fetchWithRetry cfg result (attempt + 1) with
      | .ok a rs => .ok a (attempt :: rs)
      | .failed e' a rs => .failed e' a (attempt :: rs)
    else .failed e (attempt + 1) []
termination_by cfg.maxRetries - attempt
decreasing_by omega

/-- The attempt results of the specification's streaming-retry scenario:
two consecutive transient failures, then success. -/
def c9Results : Nat → AttemptResult
  | 0 => .failure { code := some "ECONNRESET", status := none }
  | 1 => .failure { code := none, status := some 503 }
  | _ + 2 => .success

theorem jget_jset_self {α : Type} (m : List (String × α)) (k : String) (v : α) :
    jget (jset m k v) k = some v := by
  induction m with
  | nil => simp [jget, jset]
  | cons hd tl ih =>
    obtain ⟨k', v'⟩ := hd
    by_cases h : k' = k
    · simp [jget, jset, h]
    · simp [jget, jset, h, ih]

theorem jget_jset_other {α : Type} (m : List (String × α)) (k k' : String) (v : α)
    (h : k ≠ k') : jget (jset m k v) k' = jget m k' := by
  induction m with
  | nil => simp [jget, jset, h]
  | cons hd tl ih =>
    obtain ⟨k₀, v₀⟩ := hd
    by_cases h₀ : k₀ = k
    · subst h₀
      simp [jget, jset, h]
    · simp only [jset, if_neg h₀]
      by_cases h₁ : k₀ = k'
      · simp [jget, h₁]
      · simp [jget, h₁, ih]

theorem checkRateLimit_admit_in_window (cfg : RouterConfig)
    (rl : List (String × RateLimitEntry)) (sessionId : String) (now c r : Nat)
    (hget : jget rl sessionId = some { count := c, resetTime := r })
    (hlt : c < cfg.rateLimitMax) (hnow : now < r) :
    checkRateLimit cfg rl sessionId now =
      (true, jset rl sessionId { count := c + 1, resetTime := r }) := by
  simp [checkRateLimit, hget, Nat.not_le.mpr hnow, Nat.not_le.mpr hlt]

theorem checkRateLimit_reject_in_window (cfg : RouterConfig)
    (rl : List (String × RateLimitEntry)) (sessionId : String) (now c r : Nat)
    (hget : jget rl sessionId = some { count := c, resetTime := r })
    (hge : cfg.rateLimitMax ≤ c) (hnow : now < r) :
    checkRateLimit cfg rl sessionId now =
      (false, jset rl sessionId { count := c, resetTime := r }) := by
  simp [checkRateLimit, hget, Nat.not_le.mpr hnow, hge]

theorem checkRateLimit_admit_after_reset (cfg : RouterConfig)
    (rl : List (String × RateLimitEntry)) (sessionId : String) (now : Nat)
    (hmax : 0 < cfg.rateLimitMax)
    (hreset : ((jget rl sessionId).getD { count := 0, resetTime := 0 }).resetTime ≤ now) :
    checkRateLimit cfg rl sessionId now =
      (true, jset rl sessionId { count := 1, resetTime := now + cfg.rateLimitWindow }) := by
  simp [checkRateLimit, hreset, Nat.not_le.mpr hmax]

theorem admitTimes_in_window (cfg : RouterConfig) (sessionId : String) (w : Nat) :
    ∀ (ts : List Nat) (c : Nat) (rl : List (String × RateLimitEntry)),
      jget rl sessionId = some { count := c, resetTime := w } →
      c + ts.length ≤ cfg.rateLimitMax → (∀ t ∈ ts, t < w) →
      (admitTimes cfg rl sessionId ts).1 = List.replicate ts.length true ∧
      jget (admitTimes cfg rl sessionId ts).2 sessionId =
        some { count := c + ts.length, resetTime := w } := by
  intro ts
  induction ts with
  | nil =>
    intro c rl hget _ _
    simpa [admitTimes] using hget
  | cons t ts ih =>
    intro c rl hget hle hts
    simp only [List.length_cons] at hle ⊢
    have hc : c < cfg.rateLimitMax := by omega
    have ht : t < w := hts t (List.mem_cons_self t ts)
    have hstep := checkRateLimit_admit_in_window cfg rl sessionId t c w hget hc ht
    have hget' : jget (jset rl sessionId { count := c + 1, resetTime := w }) sessionId =
        some { count := c + 1, resetTime := w } := jget_jset_self _ _ _
    have hrec := ih (c + 1) (jset rl sessionId { count := c + 1, resetTime := w })
      hget' (by omega) (fun t' ht' => hts t' (List.mem_cons_of_mem t ht'))
    refine ⟨?_, ?_⟩
    · simp only [List.replicate_succ, admitTimes, hstep]
      exact congrArg (true :: ·) hrec.1
    · simp only [admitTimes, hstep]
      have : c + 1 + ts.length = c + (ts.length + 1) := by omega
      rw [← this]
      exact hrec.2

theorem finallyDecrement_le (s : RouterState) (k sid : String) :
    (jget (finallyDecrement s k).activeCounts sid).getD 0 ≤
      (jget s.activeCounts sid).getD 0 := by
  by_cases h : k = sid
  · subst h
    simp only [finallyDecrement]
    cases hg : jget s.activeCounts k with
    | none => simp [jget_jset_self, hg]
    | some n =>
      by_cases hn : n = 0
      · subst hn
        simp [jget_jset_self, hg]
      · simp only [jget_jset_self, hg, if_neg hn, Option.getD_some]
        omega
  · simp only [finallyDecrement]
    rw [jget_jset_other _ _ _ _ h]

theorem queueMessage_activeCounts_le (s : RouterState) (k sid : String) :
    (jget (queueMessage s k).activeCounts sid).getD 0 ≤
      (jget s.activeCounts sid).getD 0 := by
  simp only [queueMessage]
  by_cases hq : jhas s.queues k
  · simp [hq]
  · simp only [hq, if_false]
    by_cases h : k = sid
    · subst h
      simp [jget_jset_self]
    · simp [jget_jset_other _ _ _ _ h]

theorem processQueue_activeCounts_le (cfg : RouterConfig) (s : RouterState)
    (k : String) (now : Nat) (sessionExists : Bool) (sid : String)
    (h : ∀ j, (jget s.activeCounts j).getD 0 ≤ cfg.maxConcurrent) :
    (jget (processQueue cfg s k now sessionExists).1.activeCounts sid).getD 0 ≤
      cfg.maxConcurrent := by
  simp only [processQueue]
  cases hq : (jget s.queues k).getD [] with
  | nil => exact h sid
  | cons tag rest =>
    simp only
    by_cases hcap : cfg.maxConcurrent ≤ (jget s.activeCounts k).getD 0
    · simp only [if_pos hcap]
      exact h sid
    · simp only [if_neg hcap]
      have hbump : ∀ j, (jget (jset s.activeCounts k
          ((jget s.activeCounts k).getD 0 + 1)) j).getD 0 ≤ cfg.maxConcurrent := by
        intro j
        by_cases hj : k = j
        · subst hj
          rw [jget_jset_self]
          simpa using Nat.lt_of_not_le hcap
        · rw [jget_jset_other _ _ _ _ hj]
          exact h j
      split
      · exact le_trans (finallyDecrement_le _ _ _) (hbump sid)
      · split
        · exact le_trans (finallyDecrement_le _ _ _) (hbump sid)
        · exact hbump sid

theorem routerStep_activeCounts_le (cfg : RouterConfig) (s : RouterState) (e : RouterEv)
    (h : ∀ j, (jget s.activeCounts j).getD 0 ≤ cfg.maxConcurrent) :
    ∀ j, (jget (routerStep cfg s e).activeCounts j).getD 0 ≤ cfg.maxConcurrent := by
  intro j
  cases e with
  | enq k =>
    rw [routerStep]
    exact le_trans (queueMessage_activeCounts_le s k j) (h j)
  | deq k now ex => exact processQueue_activeCounts_le cfg s k now ex j h
  | fin k tag =>
    simp only [routerStep, completeMessage]
    split
    · exact le_trans (finallyDecrement_le _ _ _) (h j)
    · exact h j

theorem routerExec_activeCounts_le (cfg : RouterConfig) (evs : List RouterEv) :
    ∀ s : RouterState, (∀ j, (jget s.activeCounts j).getD 0 ≤ cfg.maxConcurrent) →
    ∀ j, (jget (routerExec cfg s evs).activeCounts j).getD 0 ≤ cfg.maxConcurrent := by
  induction evs with
  | nil => intro s h j; exact h j
  | cons e es ih =>
    intro s h j
    exact ih (routerStep cfg s e) (routerStep_activeCounts_le cfg s e h) j

/-- C4: for every session and every reachable state of the Message Router
(any interleaving of enqueues, queue pops and dispatch completions starting
from a fresh router), the session's active count never exceeds the
configured `maxConcurrent`. -/
theorem activeCountNeverExceedsMax (cfg : RouterConfig) (evs : List RouterEv)
    (sessionId : String) :
    (jget (routerExec cfg initRouter evs).activeCounts sessionId).getD 0 ≤
      cfg.maxConcurrent := by
  refine routerExec_activeCounts_le cfg evs initRouter ?_ sessionId
  intro j
  simp [initRouter, jget]

theorem perSession_append (sessionId : String) (l l' : List (String × Nat)) :
    perSession sessionId (l ++ l') =
      perSession sessionId l ++ perSession sessionId l' := by
  simp [perSession]

theorem perSession_singleton (sessionId k : String) (t : Nat) :
    perSession sessionId [(k, t)] = if k = sessionId then [t] else [] := by
  by_cases h : k = sessionId
  · simp [perSession, h]
  · simp [perSession, h]

theorem jget_none_of_not_jhas {α : Type} (m : List (String × α)) (k : String)
    (h : ¬ jhas m k = true) : jget m k = none := by
  cases hg : jget m k with
  | none => rfl
  | some v => exact absurd (by simp [jhas, hg]) h

theorem queueMessage_enqLog (s : RouterState) (k : String) :
    (queueMessage s k).enqLog = s.enqLog ++ [(k, s.nextTag)] := by
  simp only [queueMessage]
  by_cases hq : jhas s.queues k <;> simp [hq]

theorem queueMessage_dispatchLog (s : RouterState) (k : String) :
    (queueMessage s k).dispatchLog = s.dispatchLog := by
  simp only [queueMessage]
  by_cases hq : jhas s.queues k <;> simp [hq]

theorem queueMessage_queues_self (s : RouterState) (k : String) :
    jget (queueMessage s k).queues k =
      some ((jget s.queues k).getD [] ++ [s.nextTag]) := by
  simp only [queueMessage]
  by_cases hq : jhas s.queues k
  · simp [hq, jget_jset_self]
  · simp [hq, jget_jset_self, jget_none_of_not_jhas s.queues k hq]

theorem queueMessage_queues_other (s : RouterState) (k sid : String) (h : k ≠ sid) :
    jget (queueMessage s k).queues sid = jget s.queues sid := by
  simp only [queueMessage]
  by_cases hq : jhas s.queues k
  · simp [hq, jget_jset_other _ _ _ _ h]
  · simp [hq, jget_jset_other _ _ _ _ h]

theorem queueMessage_fifo (s : RouterState) (k : String) (h : FifoInv s) :
    FifoInv (queueMessage s k) := by
  intro sid
  rw [queueMessage_enqLog, queueMessage_dispatchLog, perSession_append,
    perSession_singleton]
  by_cases hk : k = sid
  · subst hk
    rw [if_pos rfl, queueMessage_queues_self, Option.getD_some,
      ← List.append_assoc, h k]
  · rw [if_neg hk, queueMessage_queues_other s k sid hk, List.append_nil]
    exact h sid

theorem processQueue_fifo (cfg : RouterConfig) (s : RouterState) (k : String)
    (now : Nat) (sessionExists : Bool) (h : FifoInv s) :
    FifoInv (processQueue cfg s k now sessionExists).1 := by
  simp only [processQueue]
  cases hq : (jget s.queues k).getD [] with
  | nil => exact h
  | cons tag rest =>
    simp only
    by_cases hcap : cfg.maxConcurrent ≤ (jget s.activeCounts k).getD 0
    · simp only [if_pos hcap]
      exact h
    · simp only [if_neg hcap]
      have hcore : ∀ sid,
          perSession sid (s.dispatchLog ++ [(k, tag)]) ++
            (jget (jset s.queues k rest) sid).getD [] = perSession sid s.enqLog := by
        intro sid
        by_cases hk : k = sid
        · subst hk
          rw [perSession_append, perSession_singleton, if_pos rfl, jget_jset_self]
          have := h k
          rw [hq] at this
          simpa [List.append_assoc] using this
        · rw [perSession_append, perSession_singleton, if_neg hk,
            jget_jset_other _ _ _ _ hk]
          simpa using h sid
      split
      · intro sid
        simpa [finallyDecrement] using hcore sid
      · split
        · intro sid
          simpa [finallyDecrement] using hcore sid
        · intro sid
          simpa using hcore sid

theorem completeMessage_fifo (s : RouterState) (k : String) (tag : Nat)
    (h : FifoInv s) : FifoInv (completeMessage s k tag) := by
  simp only [completeMessage]
  split
  · intro sid
    simpa [finallyDecrement] using h sid
  · exact h

theorem routerExec_fifo (cfg : RouterConfig) (evs : List RouterEv) :
    ∀ s : RouterState, FifoInv s → FifoInv (routerExec cfg s evs) := by
  induction evs with
  | nil => intro s h; exact h
  | cons e es ih =>
    intro s h
    refine ih (routerStep cfg s e) ?_
    cases e with
    | enq k => exact queueMessage_fifo s k h
    | deq k now ex => exact processQueue_fifo cfg s k now ex h
    | fin k tag => exact completeMessage_fifo s k tag h

/-- C5: per-session dispatch is strictly FIFO.  In every reachable router
state, the sequence of entries popped so far for a session, followed by the
entries still queued for it, equals that session's enqueue history; hence
the pop order is an initial segment of the enqueue order, so an entry
enqueued earlier is dispatched no later than any entry enqueued after it,
while different sessions are unconstrained. -/
theorem perSessionDispatchFifo (cfg : RouterConfig) (evs : List RouterEv)
    (sessionId : String) :
    perSession sessionId (routerExec cfg initRouter evs).dispatchLog ++
      (jget (routerExec cfg initRouter evs).queues sessionId).getD [] =
    perSession sessionId (routerExec cfg initRouter evs).enqLog := by
  refine routerExec_fifo cfg evs initRouter ?_ sessionId
  intro sid
  simp [initRouter, perSession, jget]

/-- C3: when the fixed-window rate limit is exceeded at pop time, the popped
entry's promise is rejected with the rate-limit error, the active count is
back to its pre-pop value at the end of the atomic pop step (the rejected
entry occupies no concurrency slot), the entry has left the queue, and it is
neither re-queued nor in flight, so the router never retries it. -/
theorem rateLimitedPopReleasesSlot (cfg : RouterConfig) (s : RouterState)
    (sessionId : String) (now : Nat) (sessionExists : Bool) (tag : Nat)
    (rest : List Nat)
    (hq : jget s.queues sessionId = some (tag :: rest))
    (hcap : (jget s.activeCounts sessionId).getD 0 < cfg.maxConcurrent)
    (hrl : (checkRateLimit cfg s.rateLimits sessionId now).1 = false)
    (hinf : (sessionId, tag) ∉ s.inflight) :
    (processQueue cfg s sessionId now sessionExists).2 =
      .rejectedRateLimit tag ∧
    jget (processQueue cfg s sessionId now sessionExists).1.activeCounts sessionId =
      some ((jget s.activeCounts sessionId).getD 0) ∧
    jget (processQueue cfg s sessionId now sessionExists).1.queues sessionId =
      some rest ∧
    (sessionId, tag) ∉ (processQueue cfg s sessionId now sessionExists).1.inflight := by
  have hcap' : ¬ cfg.maxConcurrent ≤ (jget s.activeCounts sessionId).getD 0 :=
    Nat.not_le.mpr hcap
  refine ⟨?_, ?_, ?_, ?_⟩ <;>
    simp [processQueue, hq, hcap', hrl, finallyDecrement, jget_jset_self, hinf]

/-- Witness for C3: one queued entry, zero active, an exhausted rate window. -/
theorem rateLimitedPopReleasesSlot_witness :
    (processQueue defaultRouterConfig c3State "s1" 50 true).2 =
      .rejectedRateLimit 7 ∧
    jget (processQueue defaultRouterConfig c3State "s1" 50 true).1.activeCounts "s1" =
      some ((jget c3State.activeCounts "s1").getD 0) ∧
    jget (processQueue defaultRouterConfig c3State "s1" 50 true).1.queues "s1" =
      some [] ∧
    ("s1", 7) ∉ (processQueue defaultRouterConfig c3State "s1" 50 true).1.inflight :=
  rateLimitedPopReleasesSlot defaultRouterConfig c3State "s1" 50 true 7 []
    (by decide) (by decide) (by decide) (by decide)

theorem queueMessage_activeCounts_other (s : RouterState) (k sid : String)
    (h : k ≠ sid) :
    jget (queueMessage s k).activeCounts sid = jget s.activeCounts sid := by
  simp only [queueMessage]
  by_cases hq : jhas s.queues k
  · simp [hq]
  · simp [hq, jget_jset_other _ _ _ _ h]

theorem queueMessage_rateLimits (s : RouterState) (k : String) :
    (queueMessage s k).rateLimits = s.rateLimits := by
  simp only [queueMessage]
  by_cases hq : jhas s.queues k <;> simp [hq]

theorem checkRateLimit_other (cfg : RouterConfig) (rl : List (String × RateLimitEntry))
    (k sid : String) (now : Nat) (h : k ≠ sid) :
    jget (checkRateLimit cfg rl k now).2 sid = jget rl sid := by
  have h2 : (checkRateLimit cfg rl k now).2 = rl ∨
      ∃ v, (checkRateLimit cfg rl k now).2 = jset rl k v := by
    unfold checkRateLimit
    dsimp only
    repeat' split
    all_goals dsimp only
    all_goals first
      | exact Or.inl rfl
      | exact Or.inr ⟨_, rfl⟩
  rcases h2 with h2 | ⟨v, h2⟩
  · rw [h2]
  · rw [h2, jget_jset_other _ _ _ _ h]

theorem processQueue_untouched (cfg : RouterConfig) (s : RouterState) (k : String)
    (now : Nat) (sessionExists : Bool) (sid : String) (hne : k ≠ sid) :
    jget (processQueue cfg s k now sessionExists).1.queues sid = jget s.queues sid ∧
    jget (processQueue cfg s k now sessionExists).1.activeCounts sid =
      jget s.activeCounts sid ∧
    jget (processQueue cfg s k now sessionExists).1.rateLimits sid =
      jget s.rateLimits sid := by
  simp only [processQueue]
  cases hq : (jget s.queues k).getD [] with
  | nil => simp
  | cons tag rest =>
    simp only
    by_cases hcap : cfg.maxConcurrent ≤ (jget s.activeCounts k).getD 0
    · simp [if_pos hcap]
    · simp only [if_neg hcap]
      by_cases hrc : (checkRateLimit cfg s.rateLimits k now).1 = false
      · refine ⟨?_, ?_, ?_⟩ <;>
          simp [if_pos hrc, finallyDecrement, jget_jset_other _ _ _ _ hne,
            checkRateLimit_other cfg s.rateLimits k sid now hne]
      · by_cases hex : sessionExists = false
        · refine ⟨?_, ?_, ?_⟩ <;>
            simp [if_neg hrc, if_pos hex, finallyDecrement,
              jget_jset_other _ _ _ _ hne,
              checkRateLimit_other cfg s.rateLimits k sid now hne]
        · refine ⟨?_, ?_, ?_⟩ <;>
            simp [if_neg hrc, if_neg hex, jget_jset_other _ _ _ _ hne,
              checkRateLimit_other cfg s.rateLimits k sid now hne]

theorem routerStep_untouched (cfg : RouterConfig) (s : RouterState) (e : RouterEv)
    (sid : String) (hne : evSession e ≠ sid)
    (h : jget s.queues sid = none ∧ jget s.activeCounts sid = none ∧
      jget s.rateLimits sid = none) :
    jget (routerStep cfg s e).queues sid = none ∧
    jget (routerStep cfg s e).activeCounts sid = none ∧
    jget (routerStep cfg s e).rateLimits sid = none := by
  obtain ⟨h1, h2, h3⟩ := h
  cases e with
  | enq k =>
    simp only [evSession] at hne
    refine ⟨?_, ?_, ?_⟩
    · rw [routerStep, queueMessage_queues_other s k sid hne, h1]
    · rw [routerStep, queueMessage_activeCounts_other s k sid hne, h2]
    · rw [routerStep, queueMessage_rateLimits, h3]
  | deq k now ex =>
    simp only [evSession] at hne
    obtain ⟨p1, p2, p3⟩ := processQueue_untouched cfg s k now ex sid hne
    exact ⟨by rw [routerStep, p1, h1], by rw [routerStep, p2, h2],
      by rw [routerStep, p3, h3]⟩
  | fin k tag =>
    simp only [evSession] at hne
    simp only [routerStep, completeMessage]
    split
    · refine ⟨h1, ?_, h3⟩
      simp only [finallyDecrement]
      rw [jget_jset_other _ _ _ _ hne]
      exact h2
    · exact ⟨h1, h2, h3⟩

theorem routerExec_untouched (cfg : RouterConfig) (evs : List RouterEv)
    (sid : String) (hall : ∀ e ∈ evs, evSession e ≠ sid) :
    ∀ s : RouterState,
      (jget s.queues sid = none ∧ jget s.activeCounts sid = none ∧
        jget s.rateLimits sid = none) →
      jget (routerExec cfg s evs).queues sid = none ∧
      jget (routerExec cfg s evs).activeCounts sid = none ∧
      jget (routerExec cfg s evs).rateLimits sid = none := by
  induction evs with
  | nil => intro s h; exact h
  | cons e es ih =>
    intro s h
    exact ih (fun e' he' => hall e' (List.mem_cons_of_mem e he'))
      (routerStep cfg s e)
      (routerStep_untouched cfg s e sid (hall e (List.mem_cons_self e es)) h)

/-- C10: for a session id never named by any router operation, the status
read reports zero queued, zero active, not rate limited and a zero reset
countdown, returns the state it was given, and the router holds no queue,
active-count or rate-limit record for that session. -/
theorem getQueueStatusUntouchedSession (cfg : RouterConfig) (evs : List RouterEv)
    (sessionId : String) (now : Nat)
    (hmax : 0 < cfg.rateLimitMax)
    (huntouched : ∀ e ∈ evs, evSession e ≠ sessionId) :
    (getQueueStatus cfg (routerExec cfg initRouter evs) sessionId now).1.queued = 0 ∧
    (getQueueStatus cfg (routerExec cfg initRouter evs) sessionId now).1.active = 0 ∧
    (getQueueStatus cfg (routerExec cfg initRouter evs) sessionId now).1.rateLimited
      = false ∧
    (getQueueStatus cfg (routerExec cfg initRouter evs) sessionId now).1.resetIn = 0 ∧
    (getQueueStatus cfg (routerExec cfg initRouter evs) sessionId now).2 =
      routerExec cfg initRouter evs ∧
    jget (routerExec cfg initRouter evs).queues sessionId = none ∧
    jget (routerExec cfg initRouter evs).activeCounts sessionId = none ∧
    jget (routerExec cfg initRouter evs).rateLimits sessionId = none := by
  have huntouched' := routerExec_untouched cfg evs sessionId huntouched initRouter
    (by simp [initRouter, jget])
  obtain ⟨h1, h2, h3⟩ := huntouched'
  refine ⟨?_, ?_, ?_, ?_, rfl, h1, h2, h3⟩
  · simp [getQueueStatus, h1]
  · simp [getQueueStatus, h2]
  · simp only [getQueueStatus, h3, Option.getD_none]
    simp [Nat.not_le.mpr hmax]
  · simp only [getQueueStatus, h3, Option.getD_none]
    simp

/-- Witness for C10: one message queued on a different session, status read
for the untouched session `s1` at time 5 under the default configuration. -/
theorem getQueueStatusUntouchedSession_witness :
    (getQueueStatus defaultRouterConfig
      (routerExec defaultRouterConfig initRouter [.enq "other"]) "s1" 5).1.queued = 0 ∧
    (getQueueStatus defaultRouterConfig
      (routerExec defaultRouterConfig initRouter [.enq "other"]) "s1" 5).1.active = 0 ∧
    (getQueueStatus defaultRouterConfig
      (routerExec defaultRouterConfig initRouter [.enq "other"]) "s1" 5).1.rateLimited
      = false ∧
    (getQueueStatus defaultRouterConfig
      (routerExec defaultRouterConfig initRouter [.enq "other"]) "s1" 5).1.resetIn = 0 ∧
    (getQueueStatus defaultRouterConfig
      (routerExec defaultRouterConfig initRouter [.enq "other"]) "s1" 5).2 =
      routerExec defaultRouterConfig initRouter [.enq "other"] ∧
    jget (routerExec defaultRouterConfig initRouter [.enq "other"]).queues "s1" = none ∧
    jget (routerExec defaultRouterConfig initRouter
      [.enq "other"]).activeCounts "s1" = none ∧
    jget (routerExec defaultRouterConfig initRouter
      [.enq "other"]).rateLimits "s1" = none :=
  getQueueStatusUntouchedSession defaultRouterConfig [.enq "other"] "s1" 5
    (by decide) (by decide)

/-- C6: for every session, after exactly `rateLimitMax` admissions within one
rate-limit window — the window is opened by the first of them at time `t0`,
the remaining `rateLimitMax - 1` happen at arbitrary times `ts` inside it —
the next admission attempt inside that window (any `t1 < t0 +
rateLimitWindow`) fails the rate-limit check, and an admission attempt after
the window has elapsed (any `t2 ≥ t0 + rateLimitWindow`) succeeds again. -/
theorem rateLimiterWindow (cfg : RouterConfig) (rl0 : List (String × RateLimitEntry))
    (sessionId : String) (t0 : Nat) (ts : List Nat) (t1 t2 : Nat)
    (hmax : 0 < cfg.rateLimitMax)
    (hfresh : jget rl0 sessionId = none)
    (hlen : ts.length + 1 = cfg.rateLimitMax)
    (hts : ∀ t ∈ ts, t < t0 + cfg.rateLimitWindow)
    (ht1 : t1 < t0 + cfg.rateLimitWindow)
    (ht2 : t0 + cfg.rateLimitWindow ≤ t2) :
    (admitTimes cfg rl0 sessionId (t0 :: ts)).1 =
      List.replicate cfg.rateLimitMax true ∧
    (checkRateLimit cfg (admitTimes cfg rl0 sessionId (t0 :: ts)).2
      sessionId t1).1 = false ∧
    (checkRateLimit cfg
      (checkRateLimit cfg (admitTimes cfg rl0 sessionId (t0 :: ts)).2
        sessionId t1).2 sessionId t2).1 = true := by
  set w := t0 + cfg.rateLimitWindow with hw
  have h0 : checkRateLimit cfg rl0 sessionId t0 =
      (true, jset rl0 sessionId { count := 1, resetTime := w }) := by
    have := checkRateLimit_admit_after_reset cfg rl0 sessionId t0 hmax (by simp [hfresh])
    simpa [hw] using this
  have hget1 : jget (jset rl0 sessionId { count := 1, resetTime := w }) sessionId =
      some { count := 1, resetTime := w } := jget_jset_self _ _ _
  have hrep := admitTimes_in_window cfg sessionId w ts 1
    (jset rl0 sessionId { count := 1, resetTime := w }) hget1 (by omega) hts
  have hall : (admitTimes cfg rl0 sessionId (t0 :: ts)).1 =
      List.replicate cfg.rateLimitMax true ∧
      jget (admitTimes cfg rl0 sessionId (t0 :: ts)).2 sessionId =
        some { count := cfg.rateLimitMax, resetTime := w } := by
    constructor
    · simp only [admitTimes, h0]
      rw [← hlen, List.replicate_succ]
      exact congrArg (true :: ·) hrep.1
    · simp only [admitTimes, h0]
      rw [← hlen]
      have : 1 + ts.length = ts.length + 1 := by omega
      rw [← this]
      exact hrep.2
  have hrej := checkRateLimit_reject_in_window cfg
    (admitTimes cfg rl0 sessionId (t0 :: ts)).2 sessionId t1
    cfg.rateLimitMax w hall.2 le_rfl ht1
  refine ⟨hall.1, by rw [hrej], ?_⟩
  rw [hrej]
  have hget2 : jget (jset (admitTimes cfg rl0 sessionId (t0 :: ts)).2 sessionId
      { count := cfg.rateLimitMax, resetTime := w }) sessionId =
      some { count := cfg.rateLimitMax, resetTime := w } := jget_jset_self _ _ _
  have := checkRateLimit_admit_after_reset cfg
    (jset (admitTimes cfg rl0 sessionId (t0 :: ts)).2 sessionId
      { count := cfg.rateLimitMax, resetTime := w }) sessionId t2 hmax
    (by simp [hget2, ht2])
  rw [this]

/-- Witness for C6 at the default configuration, a fresh session, all ten
admissions at time 0, a failing attempt at 500 ms and a succeeding one at
1000 ms. -/
theorem rateLimiterWindow_witness :
    (admitTimes defaultRouterConfig [] "s1" (0 :: List.replicate 9 0)).1 =
      List.replicate 10 true ∧
    (checkRateLimit defaultRouterConfig
      (admitTimes defaultRouterConfig [] "s1" (0 :: List.replicate 9 0)).2
      "s1" 500).1 = false ∧
    (checkRateLimit defaultRouterConfig
      (checkRateLimit defaultRouterConfig
        (admitTimes defaultRouterConfig [] "s1" (0 :: List.replicate 9 0)).2
        "s1" 500).2 "s1" 1000).1 = true :=
  rateLimiterWindow defaultRouterConfig [] "s1" 0 (List.replicate 9 0) 500 1000
    (by decide) rfl (by decide) (by decide) (by decide) (by decide)

theorem trimByCount_length_le (maxHistory : Nat) :
    ∀ (ms : List HMessage) (tc : Int),
      (trimByCount maxHistory ms tc).1.length ≤ maxHistory := by
  intro ms
  induction ms with
  | nil => intro tc; simp [trimByCount]
  | cons m rest ih =>
    intro tc
    simp only [trimByCount]
    by_cases h : maxHistory < (m :: rest).length
    · simp only [if_pos h]
      exact ih _
    · simp only [if_neg h]
      omega

theorem trimByTokens_length_le (maxTokens : Nat) :
    ∀ (ms : List HMessage) (tc : Int),
      (trimByTokens maxTokens ms tc).1.length ≤ ms.length := by
  intro ms
  induction ms with
  | nil => intro tc; simp [trimByTokens]
  | cons m rest ih =>
    intro tc
    cases rest with
    | nil => simp [trimByTokens]
    | cons m' rest' =>
      simp only [trimByTokens]
      by_cases h : (maxTokens : Int) < tc
      · simp only [if_pos h]
        exact le_trans (ih _) (by simp)
      · simp only [if_neg h]
        exact le_refl _

theorem trimByTokens_length_pos (maxTokens : Nat) :
    ∀ (ms : List HMessage) (m : HMessage) (tc : Int),
      1 ≤ (trimByTokens maxTokens (m :: ms) tc).1.length := by
  intro ms
  induction ms with
  | nil => intro m tc; simp [trimByTokens]
  | cons m' rest ih =>
    intro m tc
    simp only [trimByTokens]
    by_cases h : (maxTokens : Int) < tc
    · simp only [if_pos h]
      exact ih m' _
    · simp only [if_neg h]
      simp

theorem trimHistory_length_le (cfg : HistoryConfig) (h : SessionHistory) :
    (trimHistory cfg h).messages.length ≤ cfg.maxHistory := by
  simp only [trimHistory]
  exact le_trans (trimByTokens_length_le _ _ _) (trimByCount_length_le _ _ _)

theorem trimHistory_tokenCount_nonneg (cfg : HistoryConfig) (h : SessionHistory) :
    0 ≤ (trimHistory cfg h).tokenCount :=
  le_max_left 0 _

theorem historyAddMessage_inv (cfg : HistoryConfig)
    (hs : List (String × SessionHistory)) (sessionId : String) (msg : HMessage)
    (h : HistInv cfg hs) :
    ∀ hs', historyAddMessage cfg hs sessionId msg = .ok hs' → HistInv cfg hs' := by
  intro hs' heq
  by_cases h0 : sessionId = ""
  · simp [historyAddMessage, h0] at heq
  · by_cases h1 : msg.role ∉ validRoles
    · simp [historyAddMessage, h0, h1] at heq
    · simp only [historyAddMessage, if_neg h0, if_neg h1, Except.ok.injEq] at heq
      intro sid
      rw [← heq]
      by_cases hk : sessionId = sid
      · subst hk
        rw [jget_jset_self, Option.getD_some]
        exact ⟨trimHistory_length_le _ _, trimHistory_tokenCount_nonneg _ _⟩
      · rw [jget_jset_other _ _ _ _ hk]
        by_cases hq : jhas hs sessionId
        · simp only [if_pos hq]
          exact h sid
        · simp only [if_neg hq]
          rw [jget_jset_other _ _ _ _ hk]
          exact h sid

theorem historyExec_inv (cfg : HistoryConfig) (calls : List (String × HMessage)) :
    ∀ hs, HistInv cfg hs → HistInv cfg (historyExec cfg hs calls) := by
  induction calls with
  | nil => intro hs h; exact h
  | cons c rest ih =>
    intro hs h
    obtain ⟨sid, m⟩ := c
    simp only [historyExec]
    cases heq : historyAddMessage cfg hs sid m with
    | ok hs' => exact ih hs' (historyAddMessage_inv cfg hs sid m h hs' heq)
    | error e => exact ih hs h

/-- C7: after every finite sequence of `addMessage` calls on a fresh
conversation-history store, every session's stored message count is at most
`maxHistory` and its token count is at least 0; moreover the token-based
trim loop never shrinks a non-empty message list below one message. -/
theorem historyBoundsInvariant (cfg : HistoryConfig)
    (calls : List (String × HMessage)) (sessionId : String) :
    (((jget (historyExec cfg [] calls) sessionId).getD
        { messages := [], tokenCount := 0 }).messages.length ≤ cfg.maxHistory ∧
      0 ≤ ((jget (historyExec cfg [] calls) sessionId).getD
        { messages := [], tokenCount := 0 }).tokenCount) ∧
    (∀ (maxTokens : Nat) (m : HMessage) (ms : List HMessage) (tc : Int),
      1 ≤ (trimByTokens maxTokens (m :: ms) tc).1.length) := by
  refine ⟨?_, fun maxTokens m ms tc => trimByTokens_length_pos maxTokens ms m tc⟩
  refine historyExec_inv cfg calls [] ?_ sessionId
  intro sid
  simp [jget]

/-- C8 counterexample: the role `assistant` is rejected by
`ConversationHistory.addMessage`, so the claim that messages with role
`assistant` are accepted is false at this input. -/
theorem assistantRoleRejected :
    historyAddMessage defaultHistoryConfig [] "session-1"
      { role := "assistant", content := "hello", timestamp := 0 } =
      .error .invalidRole := by rfl

/-- C8 (amended): with a non-empty session id, a message whose role is one
of `user`, `agent`, `system` is appended successfully, and any other role is
rejected with the invalid-role error. -/
theorem rolesAcceptedIffValid (cfg : HistoryConfig)
    (hs : List (String × SessionHistory)) (sessionId : String) (msg : HMessage)
    (hsid : sessionId ≠ "") :
    (msg.role ∈ validRoles →
      ∃ hs', historyAddMessage cfg hs sessionId msg = .ok hs') ∧
    (msg.role ∉ validRoles →
      historyAddMessage cfg hs sessionId msg = .error .invalidRole) := by
  constructor
  · intro hr
    have hr' : ¬ msg.role ∉ validRoles := not_not_intro hr
    simp only [historyAddMessage, if_neg hsid, if_neg hr']
    exact ⟨_, rfl⟩
  · intro hr
    simp [historyAddMessage, hsid, hr]

/-- Witness for C8 (amended) at role `agent` on a fresh store. -/
theorem rolesAcceptedIffValid_witness :
    (("agent" : String) ∈ validRoles →
      ∃ hs', historyAddMessage defaultHistoryConfig [] "s1"
        { role := "agent", content := "hi", timestamp := 0 } = .ok hs') ∧
    (("agent" : String) ∉ validRoles →
      historyAddMessage defaultHistoryConfig [] "s1"
        { role := "agent", content := "hi", timestamp := 0 } =
        .error .invalidRole) :=
  rolesAcceptedIffValid defaultHistoryConfig [] "s1"
    { role := "agent", content := "hi", timestamp := 0 } (by decide)

theorem cmAddMessage_summarize_throw (opts : ConvMOptions) (c : ConvMState)
    (msg : HMessage) (hact : c.state = .active)
    (hthr : opts.summarizeThreshold ≤
      ((cmHistoryAdd opts c.history msg).tokenCount : ℚ) / (opts.maxTokens : ℚ)) :
    cmAddMessage opts c msg true =
      ({ state := .error, history := cmHistoryAdd opts c.history msg },
       .error .summarizationFailed) := by
  simp [cmAddMessage, hact, hthr]

/-- C1: evaluating `addMessage` at an active conversation whose token count
crosses the summarization threshold, with a failing summarizer: the call
returns the summarization error to its caller and the conversation lands in
the `error` state — the opposite of the claimed non-fatal behaviour (the
repository's own test `should handle summarization errors` awaits this
`addMessage` call as succeeding). -/
theorem summarizeFailureSetsErrorState :
    (cmAddMessage cmDefaultOptions c1Conv c1Msg true).1.state = .error ∧
    (cmAddMessage cmDefaultOptions c1Conv c1Msg true).2 =
      .error .summarizationFailed := by
  have h1 : (cmHistoryAdd cmDefaultOptions c1Conv.history c1Msg).tokenCount = 3010 := by
    rfl
  have hthr : cmDefaultOptions.summarizeThreshold ≤
      ((cmHistoryAdd cmDefaultOptions c1Conv.history c1Msg).tokenCount : ℚ) /
      (cmDefaultOptions.maxTokens : ℚ) := by
    rw [h1]
    norm_num [cmDefaultOptions]
  rw [cmAddMessage_summarize_throw cmDefaultOptions c1Conv c1Msg rfl hthr]
  exact ⟨rfl, rfl⟩

/-- C2: the caller's cancellation signal is discarded before the request is
issued.  `streamResponse` copies `options.signal` into the fetch options,
but `_fetchWithRetry` spreads those options and then overrides `signal`
with the per-attempt controller's signal, so the issued request carries
only the controller's signal and the firing of the caller's signal does not
abort the in-flight attempt. -/
theorem callerSignalDiscarded (message : String) (callerSig ctrlSig : Nat)
    (h : callerSig ≠ ctrlSig) :
    (fetchRequestOptions (buildStreamFetchOptions message (some callerSig))
      ctrlSig).signal = some ctrlSig ∧
    attemptAborted (fetchRequestOptions
      (buildStreamFetchOptions message (some callerSig)) ctrlSig)
      [callerSig] = false := by
  refine ⟨rfl, ?_⟩
  simp [attemptAborted, fetchRequestOptions, buildStreamFetchOptions, Ne.symm h]

/-- Witness for C2: caller signal 1, per-attempt controller signal 2. -/
theorem callerSignalDiscarded_witness :
    (fetchRequestOptions (buildStreamFetchOptions "hi" (some 1)) 2).signal =
      some 2 ∧
    attemptAborted (fetchRequestOptions (buildStreamFetchOptions "hi" (some 1)) 2)
      [1] = false :=
  callerSignalDiscarded "hi" 1 2 (by decide)

/-- C9 counterexample: at the default configuration, attempt 0 and random
draw `u = 9/10`, the code's delay is 950 ms, while a jitter law spanning
50% to 150% of the base gives 1400 ms at the same draw; the code's factor
`0.5 + u * 0.5` stays below 1, so delays above the base are unreachable. -/
theorem jitterRangeCounterexample :
    calculateDelay defaultRetryConfig 0 (9 / 10) = 950 ∧
    specClaimedJitterDelay defaultRetryConfig 0 (9 / 10) = 1400 ∧
    (950 : ℚ) ≠ 1400 := by
  refine ⟨?_, ?_, by norm_num⟩ <;>
    norm_num [calculateDelay, specClaimedJitterDelay, baseDelay, defaultRetryConfig]

theorem fetchWithRetry_success (cfg : RetryConfig) (result : Nat → AttemptResult)
    (attempt : Nat) (h : result attempt = .success) :
    fetchWithRetry cfg result attempt = .ok (attempt + 1) [] := by
  rw [fetchWithRetry, h]

theorem fetchWithRetry_retry (cfg : RetryConfig) (result : Nat → AttemptResult)
    (attempt : Nat) (e : FetchError) (h : result attempt = .failure e)
    (hc : attempt < cfg.maxRetries ∧ isRetryableError cfg e = true) :
    fetchWithRetry cfg result attempt =
      match fetchWithRetry cfg result (attempt + 1) with
      | .ok a rs => .ok a (attempt :: rs)
      | .failed e' a rs => .failed e' a (attempt :: rs) := by
  rw [fetchWithRetry, h]
  dsimp only
  rw [dif_pos hc]

theorem fetchWithRetry_stop (cfg : RetryConfig) (result : Nat → AttemptResult)
    (attempt : Nat) (e : FetchError) (h : result attempt = .failure e)
    (hc : ¬ (attempt < cfg.maxRetries ∧ isRetryableError cfg e = true)) :
    fetchWithRetry cfg result attempt = .failed e (attempt + 1) [] := by
  rw [fetchWithRetry, h]
  dsimp only
  rw [dif_neg hc]

theorem fetchWithRetry_attempts_le (cfg : RetryConfig)
    (result : Nat → AttemptResult) :
    ∀ (k attempt : Nat), cfg.maxRetries - attempt ≤ k →
      attemptsOf (fetchWithRetry cfg result attempt) ≤ cfg.maxRetries + 1 ∨
      attemptsOf (fetchWithRetry cfg result attempt) ≤ attempt + 1 := by
  intro k
  induction k with
  | zero =>
    intro attempt hk
    cases hres : result attempt with
    | success =>
      rw [fetchWithRetry_success cfg result attempt hres]
      right
      simp [attemptsOf]
    | failure e =>
      have hc : ¬ (attempt < cfg.maxRetries ∧ isRetryableError cfg e = true) := by
        intro hc
        omega
      rw [fetchWithRetry_stop cfg result attempt e hres hc]
      right
      simp [attemptsOf]
  | succ n ih =>
    intro attempt hk
    cases hres : result attempt with
    | success =>
      rw [fetchWithRetry_success cfg result attempt hres]
      right
      simp [attemptsOf]
    | failure e =>
      by_cases hc : attempt < cfg.maxRetries ∧ isRetryableError cfg e = true
      · rw [fetchWithRetry_retry cfg result attempt e hres hc]
        have hrec := ih (attempt + 1) (by omega)
        cases hfr : fetchWithRetry cfg result (attempt + 1) with
        | ok a rs =>
          rw [hfr] at hrec
          simp only [attemptsOf] at hrec ⊢
          omega
        | failed e' a rs =>
          rw [hfr] at hrec
          simp only [attemptsOf] at hrec ⊢
          omega
      · rw [fetchWithRetry_stop cfg result attempt e hres hc]
        right
        simp [attemptsOf]

theorem fetchWithRetry_retries_sound (cfg : RetryConfig)
    (result : Nat → AttemptResult) :
    ∀ (k attempt : Nat), cfg.maxRetries - attempt ≤ k →
      ∀ r ∈ retriesOf (fetchWithRetry cfg result attempt),
        r < cfg.maxRetries ∧
        ∃ e, result r = .failure e ∧ isRetryableError cfg e = true := by
  intro k
  induction k with
  | zero =>
    intro attempt hk r hr
    cases hres : result attempt with
    | success =>
      rw [fetchWithRetry_success cfg result attempt hres] at hr
      simp [retriesOf] at hr
    | failure e =>
      have hc : ¬ (attempt < cfg.maxRetries ∧ isRetryableError cfg e = true) := by
        intro hc
        omega
      rw [fetchWithRetry_stop cfg result attempt e hres hc] at hr
      simp [retriesOf] at hr
  | succ n ih =>
    intro attempt hk r hr
    cases hres : result attempt with
    | success =>
      rw [fetchWithRetry_success cfg result attempt hres] at hr
      simp [retriesOf] at hr
    | failure e =>
      by_cases hc : attempt < cfg.maxRetries ∧ isRetryableError cfg e = true
      · rw [fetchWithRetry_retry cfg result attempt e hres hc] at hr
        cases hfr : fetchWithRetry cfg result (attempt + 1) with
        | ok a rs =>
          rw [hfr] at hr
          simp only [retriesOf, List.mem_cons] at hr
          rcases hr with rfl | hr
          · exact ⟨hc.1, e, hres, hc.2⟩
          · refine ih (attempt + 1) (by omega) r ?_
            rw [hfr]
            simpa [retriesOf] using hr
        | failed e' a rs =>
          rw [hfr] at hr
          simp only [retriesOf, List.mem_cons] at hr
          rcases hr with rfl | hr
          · exact ⟨hc.1, e, hres, hc.2⟩
          · refine ih (attempt + 1) (by omega) r ?_
            rw [hfr]
            simpa [retriesOf] using hr
      · rw [fetchWithRetry_stop cfg result attempt e hres hc] at hr
        simp [retriesOf] at hr

/-- C9 (amended): a retry happens only on a retryable failure (transport
code in the allow-list or a non-zero HTTP status in
{408, 429, 500, 502, 503, 504}) at an attempt index below `maxRetries`, so
total attempts are at most `maxRetries + 1`; and each retry delay is the
exponential-backoff base `min(initialDelay * factor^attempt, maxDelay)`
scaled by `0.5 + u * 0.5` for the random draw `u ∈ [0, 1)`, so it spans
50% to 100% of the base (not 50% to 150%). -/
theorem retryPolicyAmended (cfg : RetryConfig) (result : Nat → AttemptResult)
    (attempt : Nat) (u : ℚ) (h0 : 0 ≤ u) (h1 : u < 1) :
    attemptsOf (fetchWithRetry cfg result 0) ≤ cfg.maxRetries + 1 ∧
    (∀ r ∈ retriesOf (fetchWithRetry cfg result 0),
      r < cfg.maxRetries ∧
      ∃ e, result r = .failure e ∧ isRetryableError cfg e = true) ∧
    (baseDelay cfg attempt : ℚ) / 2 ≤ calculateDelay cfg attempt u ∧
    calculateDelay cfg attempt u ≤ (baseDelay cfg attempt : ℚ) ∧
    (0 < baseDelay cfg attempt →
      calculateDelay cfg attempt u < (baseDelay cfg attempt : ℚ)) := by
  have hb : (0 : ℚ) ≤ (baseDelay cfg attempt : ℚ) := by positivity
  refine ⟨?_, ?_, ?_, ?_, ?_⟩
  · rcases fetchWithRetry_attempts_le cfg result cfg.maxRetries 0 (by omega) with h | h
    · exact h
    · omega
  · exact fetchWithRetry_retries_sound cfg result cfg.maxRetries 0 (by omega)
  · simp only [calculateDelay]
    nlinarith
  · simp only [calculateDelay]
    nlinarith
  · intro hpos
    have hb' : (0 : ℚ) < (baseDelay cfg attempt : ℚ) := by exact_mod_cast hpos
    simp only [calculateDelay]
    nlinarith

/-- Witness for C9 (amended) at the default configuration and `u = 1/2`,
together with the spec's scenario: two transient failures then success give
exactly two retry notifications (at attempts 0 and 1) and three attempts. -/
theorem retryPolicyAmended_witness :
    (attemptsOf (fetchWithRetry defaultRetryConfig c9Results 0) ≤ 3 + 1 ∧
     (∀ r ∈ retriesOf (fetchWithRetry defaultRetryConfig c9Results 0),
       r < 3 ∧
       ∃ e, c9Results r = .failure e ∧
         isRetryableError defaultRetryConfig e = true) ∧
     (baseDelay defaultRetryConfig 0 : ℚ) / 2 ≤
       calculateDelay defaultRetryConfig 0 (1 / 2) ∧
     calculateDelay defaultRetryConfig 0 (1 / 2) ≤
       (baseDelay defaultRetryConfig 0 : ℚ) ∧
     (0 < baseDelay defaultRetryConfig 0 →
       calculateDelay defaultRetryConfig 0 (1 / 2) <
         (baseDelay defaultRetryConfig 0 : ℚ))) ∧
    fetchWithRetry defaultRetryConfig c9Results 0 = .ok 3 [0, 1] := by
  have h2 : fetchWithRetry defaultRetryConfig c9Results 2 = .ok 3 [] :=
    fetchWithRetry_success defaultRetryConfig c9Results 2 rfl
  have h1 : fetchWithRetry defaultRetryConfig c9Results 1 = .ok 3 [1] := by
    rw [fetchWithRetry_retry defaultRetryConfig c9Results 1
      { code := none, status := some 503 } rfl ⟨by decide, by decide⟩, h2]
  have h0 : fetchWithRetry defaultRetryConfig c9Results 0 = .ok 3 [0, 1] := by
    rw [fetchWithRetry_retry defaultRetryConfig c9Results 0
      { code := some "ECONNRESET", status := none } rfl ⟨by decide, by decide⟩, h1]
  exact ⟨retryPolicyAmended defaultRetryConfig c9Results 0 (1 / 2)
    (by norm_num) (by norm_num), h0⟩

end DustMcp
